import Mathlib

/-!
Verification development for the Z-Match matching core (`src/main.py`, with
the equivalent legacy code in `src/runningBK.py`).

The Python code is shallowly embedded: Python floats are modelled as exact
rationals (`ℚ`), Python exceptions as `Option` (`none` = the call raised),
pandas rows as association lists from column name to cell string, and the
filesystem seen by the reconciliation step as explicit lookup/copy oracles.
All strings handled by the program come from files decoded as Latin-1
(`parse_csv` opens with `encoding="latin1"`), so character-level models of
Python's text primitives are exact on code points up to 0xFF; behaviour on
higher code points is irrelevant to the embedded program.
-/

set_option maxRecDepth 2000

namespace ZMatch

/-! ### Python text primitives -/

/-- Characters that CPython `str.strip()` / `float()` treat as whitespace,
restricted to the Latin-1 range: tab..carriage-return, the file/group/record/
unit separators 0x1C-0x1F, space, next-line 0x85 and no-break space 0xA0. -/
def pyWhitespace (c : Char) : Bool :=
  c.val = 32 || (9 ≤ c.val && c.val ≤ 13) || (28 ≤ c.val && c.val ≤ 31) ||
    c.val = 133 || c.val = 160

/-- Python `str.strip()`: drop leading and trailing whitespace. -/
def pyStrip (s : String) : String :=
  String.mk (((s.data.dropWhile pyWhitespace).reverse.dropWhile pyWhitespace).reverse)

/-- Python `str.lower()` on one character, exact on the Latin-1 range:
ASCII upper case and the accented capitals 0xC0-0xDE (except the
multiplication sign 0xD7) gain 32. -/
def pyLowerChar (c : Char) : Char :=
  if ('A' ≤ c && c ≤ 'Z') || (0xC0 ≤ c.val && c.val ≤ 0xDE && c.val ≠ 0xD7) then
    Char.ofNat (c.toNat + 32)
  else c

/-- Python `str.lower()`. -/
def pyLower (s : String) : String :=
  String.mk (s.data.map pyLowerChar)

/-- Python `str.replace(CHR(34), "")`: remove every double-quote character. -/
def pyRemoveQuotes (s : String) : String :=
  String.mk (s.data.filter (fun c => c ≠ '"'))

/-- Numeric value of a list of ASCII digits. -/
def digitsVal (l : List Char) : Nat :=
  l.foldl (fun a c => a * 10 + (c.toNat - 48)) 0

/-- Scale a rational by a (possibly negative) power of ten, used for the
exponent part of a float literal. -/
def applyExp (q : ℚ) (e : Int) : ℚ :=
  if 0 ≤ e then q * (10 : ℚ) ^ e.toNat else q / (10 : ℚ) ^ (-e).toNat

/-- Parse a non-empty all-digit suffix as an integer (exponent digits). -/
def parseDigitsInt (l : List Char) : Option Int :=
  if l ≠ [] ∧ l.all Char.isDigit then some (digitsVal l : Int) else none

/-- Parse an optionally signed digit string (a float literal exponent). -/
def parseSignedInt (l : List Char) : Option Int :=
  match l with
  | '+' :: r => parseDigitsInt r
  | '-' :: r => (parseDigitsInt r).map Int.neg
  | r => parseDigitsInt r

/-- Parse the trailing exponent part of a float literal: empty means
exponent 0; otherwise `e`/`E` followed by an optionally signed integer. -/
def parseExpPart (l : List Char) : Option Int :=
  match l with
  | [] => some 0
  | 'e' :: r => parseSignedInt r
  | 'E' :: r => parseSignedInt r
  | _ => none

/-- Parse an unsigned float literal body: digits, an optional fraction, an
optional exponent; at least one digit must be present. -/
def parseUnsigned (l : List Char) : Option ℚ :=
  let ip := l.takeWhile Char.isDigit
  let r1 := l.dropWhile Char.isDigit
  match r1 with
  | '.' :: r2 =>
    let fp := r2.takeWhile Char.isDigit
    let r3 := r2.dropWhile Char.isDigit
    if ip.isEmpty && fp.isEmpty then none
    else (parseExpPart r3).map (fun e =>
      applyExp ((digitsVal ip : ℚ) + (digitsVal fp : ℚ) / (10 : ℚ) ^ fp.length) e)
  | _ =>
    if ip.isEmpty then none
    else (parseExpPart r1).map (fun e => applyExp (digitsVal ip : ℚ) e)

/-- Model of CPython `float(string)` over exact rationals: optional
surrounding whitespace, optional sign, decimal digits with optional
fraction and exponent.  `none` models `ValueError`.  Digit-group
underscores and the non-finite literals `inf`/`nan` (which fall outside a
rational model) are not modelled; no input of this repository uses them. -/
def pyFloat? (s : String) : Option ℚ :=
  let l := ((s.data.dropWhile pyWhitespace).reverse.dropWhile pyWhitespace).reverse
  match l with
  | '+' :: r => parseUnsigned r
  | '-' :: r => (parseUnsigned r).map Neg.neg
  | r => parseUnsigned r

/-- Python `str(x)` for an optional string cell: a missing value (`None`)
prints as the text `None`, exactly as `str(row.get(col))` does. -/
def pyStr (o : Option String) : String :=
  o.getD "None"

/-! ### TimecodeClock: `timecode_to_seconds` (main.py 196-202) -/

/-- Model of `re.split(r' [:;.] ', s)`: split on any of the three delimiters,
keeping empty segments. -/
def splitOnDelims : List Char → List (List Char)
  | [] => [[]]
  | c :: rest =>
    if c = ':' || c = ';' || c = '.' then [] :: splitOnDelims rest
    else
      match splitOnDelims rest with
      | [] => [[c]]
      | h :: t => (c :: h) :: t

/-- The delimiter-separated fields of a timecode string. -/
def splitFields (tc : String) : List String :=
  (splitOnDelims tc.data).map String.mk

/-- Monadic map over `Option`, written by explicit recursion so proofs can
unfold it: `none` as soon as one element fails. -/
def optionMapAll (f : α → Option β) : List α → Option (List β)
  | [] => some []
  | a :: l => do
    let b ← f a
    let bs ← optionMapAll f l
    pure (b :: bs)

/-- Model of `h, m, s, f = map(float, re.split(...))`: all fields must
parse as floats and there must be exactly four of them. -/
def tcFields (tc : String) : Option (ℚ × ℚ × ℚ × ℚ) :=
  match optionMapAll pyFloat? (splitFields tc) with
  | some [h, m, s, f] => some (h, m, s, f)
  | _ => none

/-- Constant `DEFAULT_FPS = 23.98` (main.py 166). -/
def DEFAULT_FPS : ℚ := 23.98

/-- Function `timecode_to_seconds` (main.py 196-202; `tc_to_sec` in runningBK.py
211-216 is the same logic): convert `HH:MM:SS:FF` to seconds; any failure
inside the guarded region - wrong field count, unparsable field, or the
`ZeroDivisionError` raised by `f / fps` when `fps` is zero - yields `0.0`. -/
def timecode_to_seconds (tc : String) (fps : ℚ) : ℚ :=
  match tcFields tc with
  | some (h, m, s, f) => if fps = 0 then 0 else h * 3600 + m * 60 + s + f / fps
  | none => 0

/-! ### Canonical rows -/

/-- A canonical row: an association list from column name to cell string
(all cells are strings after `parse_csv` normalisation).  `get?` returns
`none` when the column is absent, as `pandas.Series.get` returns `None`. -/
def Row : Type := List (String × String)

/-- Model of `row.get(col)` without a default: `none` models Python `None`. -/
def Row.get? (r : Row) (k : String) : Option String :=
  (List.find? (fun p => p.1 = k) r).map Prod.snd

/-- Model of `row.get(col, default)` with a string default. -/
def Row.getD (r : Row) (k d : String) : String :=
  (r.get? k).getD d

/-- Dataclass `MatchResult` (main.py 183-193): one matched recorder/transmitter pair. -/
structure MatchResult where
  recorder_idx : Nat
  transmitter_idx : Nat
  new_filename : String
  original_filename : String
  offset_seconds : ℚ
  fps_mismatch : Bool
  fps_recorder : ℚ
  fps_transmitter : ℚ
  deriving DecidableEq, Repr

/-! ### MatchEngine: `find_matches` (main.py 241-282) -/

/-- Model of `float(rec_row.get("FrameRate", DEFAULT_FPS))` (main.py 253): a missing
column yields the default float; otherwise the cell string goes through
`float`, whose `ValueError` (`none`) propagates out of `find_matches` -
note that an empty cell raises here. -/
def recorder_fps (r : Row) : Option ℚ :=
  match r.get? "FrameRate" with
  | none => some DEFAULT_FPS
  | some s => pyFloat? s

/-- Model of `float(trans_row.get("FrameRate", DEFAULT_FPS) or DEFAULT_FPS)`
(main.py 259): a missing column or a falsy (empty) cell yields the
default; any other cell string goes through `float`, whose `ValueError`
propagates. -/
def transmitter_fps (r : Row) : Option ℚ :=
  match r.get? "FrameRate" with
  | none => some DEFAULT_FPS
  | some s => if s = "" then some DEFAULT_FPS else pyFloat? s

/-- Index of the last occurrence of a character, if any. -/
def lastIdxOf (l : List Char) (c : Char) : Option Nat :=
  ((l.enum.filter (fun p => p.2 = c)).map Prod.fst).getLast?

/-- Model of `posixpath.splitext(p)[1]`: the extension starting at the last dot of
the final path component, empty when the component has only leading dots. -/
def splitext_ext (s : String) : String :=
  let l := s.data
  match lastIdxOf l '.' with
  | none => ""
  | some d =>
    let fstart : Nat :=
      match lastIdxOf l '/' with
      | none => 0
      | some sp => sp + 1
    if fstart ≤ d then
      if ((l.drop fstart).take (d - fstart)).any (fun c => c ≠ '.') then
        String.mk (l.drop d)
      else ""
    else ""

/-- Construction of one `MatchResult` (main.py 265-280), shared by the code
embedding and the spec-side join: the proposed filename is
`"{Scene}-T{Take}-{track}{ext}"` with the extension taken from the
transmitter FileName. -/
def make_match (track_col : String) (rec_idx : Nat) (rec_row : Row)
    (jt : Nat × Row) (fps_rec fps_trans tc_rec tc_trans : ℚ) : MatchResult :=
  let ch := rec_row.getD track_col ""
  let orig := pyStrip ((jt.2.get? "FileName").getD "")
  { recorder_idx := rec_idx
    transmitter_idx := jt.1
    new_filename := pyStr (rec_row.get? "Scene") ++ "-T" ++ pyStr (rec_row.get? "Take")
      ++ "-" ++ ch ++ splitext_ext orig
    original_filename := orig
    offset_seconds := |tc_rec - tc_trans|
    fps_mismatch := decide (fps_rec ≠ fps_trans)
    fps_recorder := fps_rec
    fps_transmitter := fps_trans }

/-- Inner loop of `find_matches` (main.py 258-281): one recorder row
against every transmitter row in order; `none` when a transmitter frame
rate fails to parse (the `float` call raises). -/
def match_transmitters (track_col : String) (offset_limit : ℚ) (rec_idx : Nat)
    (rec_row : Row) (fps_rec tc_rec : ℚ) : List (Nat × Row) → Option (List MatchResult)
  | [] => some []
  | jt :: rest => do
    let fps_trans ← transmitter_fps jt.2
    let tc_trans := timecode_to_seconds (pyStr (jt.2.get? "TimeCode")) fps_trans
    let tail ← match_transmitters track_col offset_limit rec_idx rec_row fps_rec tc_rec rest
    if pyStr (rec_row.get? "UserBits") = pyStr (jt.2.get? "UserBits")
        ∧ |tc_rec - tc_trans| ≤ offset_limit then
      some (make_match track_col rec_idx rec_row jt fps_rec fps_trans tc_rec tc_trans :: tail)
    else
      some tail

/-- Outer loop of `find_matches` (main.py 251-281): `none` when an index is
not in the recorder frame (`KeyError`) or a frame rate fails to parse. -/
def match_recorders (recorder_df transmitter_df : List Row) (track_col : String)
    (offset_limit : ℚ) : List Nat → Option (List MatchResult)
  | [] => some []
  | i :: rest => do
    let rec_row ← recorder_df.get? i
    let fps_rec ← recorder_fps rec_row
    let tc_rec := timecode_to_seconds (pyStr (rec_row.get? "TimeCode")) fps_rec
    let here ← match_transmitters track_col offset_limit i rec_row fps_rec tc_rec
      transmitter_df.enum
    let tail ← match_recorders recorder_df transmitter_df track_col offset_limit rest
    some (here ++ tail)

/-- Function `find_matches` (main.py 241-282).  Rows are indexed positionally (the
frames carry a pandas RangeIndex); `none` models an uncaught exception. -/
def find_matches (recorder_df transmitter_df : List Row) (recorder_indices : List Nat)
    (track_col : String) (offset_limit : ℚ) : Option (List MatchResult) :=
  match_recorders recorder_df transmitter_df track_col offset_limit recorder_indices

/-! ### Spec-side view of the join (spec section 4.4)

These definitions follow the words of the spec, to be compared with
`find_matches`: each side's frame rate defaults to the nominal rate when
missing, empty or non-numeric; userbits are compared as raw strings; a
pair is accepted exactly when the absolute timecode difference is within
tolerance; the recorder loop is outer, the transmitter loop inner. -/

/-- Frame rate as the spec describes it: `FrameRate` is optional and
defaults to the nominal rate when missing, empty, or non-numeric. -/
def spec_fps (r : Row) : ℚ :=
  match r.get? "FrameRate" with
  | none => DEFAULT_FPS
  | some s => (pyFloat? s).getD DEFAULT_FPS

/-- The spec-side converted timecode of a row, using that row's own frame
rate. -/
def spec_tc (r : Row) : ℚ :=
  timecode_to_seconds (pyStr (r.get? "TimeCode")) (spec_fps r)

/-- Spec-side acceptance and Match construction for one (recorder,
transmitter) pair: userbits raw-string equality and timecode proximity. -/
def spec_pair (track_col : String) (offset_limit : ℚ) (rec_idx : Nat) (rec_row : Row)
    (jt : Nat × Row) : Option MatchResult :=
  if pyStr (rec_row.get? "UserBits") = pyStr (jt.2.get? "UserBits")
      ∧ |spec_tc rec_row - spec_tc jt.2| ≤ offset_limit then
    some (make_match track_col rec_idx rec_row jt (spec_fps rec_row) (spec_fps jt.2)
      (spec_tc rec_row) (spec_tc jt.2))
  else none

/-- The whole join as the spec states it: for every selected recorder row
in selected order, every transmitter row in row order nested inside, one
independent Match per accepted pair, no pruning. -/
def match_spec (recorder_df transmitter_df : List Row) (recorder_indices : List Nat)
    (track_col : String) (offset_limit : ℚ) : List MatchResult :=
  recorder_indices.flatMap (fun i =>
    match recorder_df.get? i with
    | none => []
    | some r => transmitter_df.enum.filterMap (spec_pair track_col offset_limit i r))

/-! ### LogNormalizer cell normalisation (main.py 232-237) -/

/-- The cell-normalisation lambda of `parse_csv` (main.py 233-237;
load_file in runningBK.py 145): a missing cell (pandas `NaN`, not a
string) becomes empty; a string cell whose raw value lowercases to
exactly `nan` becomes empty; any other string loses its double quotes and
surrounding whitespace. -/
def normalize_cell : Option String → String
  | none => ""
  | some s => if pyLower s = "nan" then "" else pyStrip (pyRemoveQuotes s)

/-- The trim the spec's sentence describes: strip surrounding double-quote
characters and whitespace from both ends (spec: a cell whose trimmed value
case-insensitively equals nan becomes empty). -/
def spec_cell_trim (s : String) : String :=
  String.mk (((s.data.dropWhile (fun c => pyWhitespace c || c = '"')).reverse.dropWhile
    (fun c => pyWhitespace c || c = '"')).reverse)

/-! ### TrackIndexer: `identify_active_tracks` (main.py 380-404) -/

/-- A data frame: the column schema in order plus the rows.  (pandas keeps
the column order of the source file; duplicate headers are mangled to
unique names on read.) -/
structure DF where
  columns : List String
  rows : List Row

/-- The candidate track columns: name starts with `Name` or `Track` and is
not the literal `Tracks` (main.py 387-390). -/
def track_cols (df : DF) : List String :=
  df.columns.filter (fun c =>
    (c.startsWith "Name" || c.startsWith "Track") && c ≠ "Tracks")

/-- Column `df[col]` as a list of cell strings, in row order. -/
def col_values (df : DF) (col : String) : List String :=
  df.rows.map (fun r => r.getD col "")

/-- Model of `pandas.Series.unique()`: distinct values in order of first appearance. -/
def pyUnique (l : List String) : List String :=
  l.foldl (fun acc x => if x ∈ acc then acc else acc ++ [x]) []

/-- Model of the comprehension over `df[col].unique()` keeping non-empty values (main.py 395). -/
def populated_values (df : DF) (col : String) : List String :=
  (pyUnique (col_values df col)).filter (fun v => v ≠ "")

/-- The display name chosen before collision handling (main.py 399): the
single distinct non-empty value when there is exactly one, else the raw
column name. -/
def natural_display (df : DF) (col : String) : String :=
  match populated_values df col with
  | [n] => n
  | _ => col

/-- Python `dict` assignment `m[k] = v`: overwrite in place when the key
exists (keeping its position), else append. -/
def dict_insert (m : List (String × String)) (k v : String) : List (String × String) :=
  if m.any (fun p => p.1 = k) then
    m.map (fun p => if p.1 = k then (k, v) else p)
  else m ++ [(k, v)]

/-- One iteration of the `identify_active_tracks` loop (main.py 394-402). -/
def track_step (df : DF) (st : List String × List (String × String)) (col : String) :
    List String × List (String × String) :=
  if populated_values df col = [] then st
  else
    let d0 := natural_display df col
    let d := if st.2.any (fun p => p.1 = d0) then d0 ++ " (" ++ col ++ ")" else d0
    (st.1 ++ [col], dict_insert st.2 d col)

/-- Function `identify_active_tracks` (main.py 380-404): returns the active columns
and the display-name-to-column mapping (a Python dict, modelled as an
insertion-ordered association list). -/
def identify_active_tracks (df : DF) : List String × List (String × String) :=
  (track_cols df).foldl (track_step df) ([], [])

/-! ### FileReconciler: `copy_and_rename_files` (main.py 285-325)

The filesystem is modelled by two oracles: `actual_files_map`, the
case-insensitive directory index (lowercased name to on-disk name) that
the caller builds from `os.listdir`, and `copy_err`, which reports for a
(source path, destination path) pair whether `shutil.copy2` raised an
`OSError` (`some message`) or succeeded (`none`). -/

/-- Model of `os.path.join` for the paths this program builds. -/
def pjoin (a b : String) : String :=
  if b.startsWith "/" then b
  else if a = "" then b
  else if a.endsWith "/" then a ++ b
  else a ++ "/" ++ b

/-- The not-found error text (main.py 313). -/
def notFoundMsg (m : MatchResult) : String :=
  "NOT FOUND on disk: " ++ m.original_filename

/-- The copy-failed error text (main.py 323). -/
def copyFailMsg (actual_name exc : String) : String :=
  "COPY FAILED: " ++ actual_name ++ "\n  → " ++ exc

/-- Function `copy_and_rename_files` (main.py 285-325): for each match in order,
resolve the on-disk name through the lowercase index (a `None` or an
empty-string entry is falsy, hence not found), then copy; failures are
collected and the loop continues. -/
def copy_and_rename_files (ms : List MatchResult) (source_dir dest_dir : String)
    (actual_files_map : String → Option String) (copy_err : String → String → Option String) :
    List MatchResult × List String :=
  match ms with
  | [] => ([], [])
  | m :: rest =>
    let t := copy_and_rename_files rest source_dir dest_dir actual_files_map copy_err
    match actual_files_map (pyLower m.original_filename) with
    | none => (t.1, notFoundMsg m :: t.2)
    | some a =>
      if a = "" then (t.1, notFoundMsg m :: t.2)
      else
        match copy_err (pjoin source_dir a) (pjoin dest_dir m.new_filename) with
        | none => (m :: t.1, t.2)
        | some exc => (t.1, copyFailMsg a exc :: t.2)

/-- Spec-side per-match reconciliation outcome: `none` when the copy
succeeds, `some msg` when the match fails (not found on disk, or the copy
raised). -/
def copy_outcome (source_dir dest_dir : String) (actual_files_map : String → Option String)
    (copy_err : String → String → Option String) (m : MatchResult) : Option String :=
  match actual_files_map (pyLower m.original_filename) with
  | none => some (notFoundMsg m)
  | some a =>
    if a = "" then some (notFoundMsg m)
    else (copy_err (pjoin source_dir a) (pjoin dest_dir m.new_filename)).map (copyFailMsg a)

/-! ### Destination folder naming (main.py 799-812; runningBK.py 272-281) -/

/-- Python `re` word characters (`RE-BACKSLASH-w`) on the Latin-1 range:
ASCII alphanumerics, the underscore, and the Latin-1 letters and numeric
signs that CPython treats as alphanumeric (ª ² ³ µ ¹ º ¼ ½ ¾ and the
accented letters 0xC0-0xFF except × and ÷).  Inputs come from Latin-1
decoded files, so higher code points do not occur.  -/
def isPyWord (c : Char) : Bool :=
  c.isAlphanum || c = '_' ||
  c.val = 0xAA || c.val = 0xB2 || c.val = 0xB3 || c.val = 0xB5 || c.val = 0xB9 ||
  c.val = 0xBA || c.val = 0xBC || c.val = 0xBD || c.val = 0xBE ||
  (0xC0 ≤ c.val && c.val ≤ 0xFF && c.val ≠ 0xD7 && c.val ≠ 0xF7)

/-- Model of the substitution `re.sub` on the non-word-non-dash class (main.py 811): every
character that is neither a word character nor a dash becomes a dash. -/
def pySanitizeWordDash (s : String) : String :=
  String.mk (s.data.map (fun c => if isPyWord c || c = '-' then c else '-'))

/-- The allowed-character class the spec names: `[A-Za-z0-9_-]`. -/
def spec_allowed_char (c : Char) : Bool :=
  ('A' ≤ c && c ≤ 'Z') || ('a' ≤ c && c ≤ 'z') || ('0' ≤ c && c ≤ '9') ||
  c = '_' || c = '-'

/-- Model of `names_seen` (main.py 805-809): the distinct non-empty track values of
the matched recorder rows, in first-seen order; `none` when a match
carries an index outside the recorder frame (`KeyError`). -/
def first_seen_track_names (recorder_df : List Row) (track_col : String) :
    List MatchResult → List String → Option (List String)
  | [], acc => some acc
  | m :: rest, acc =>
    match recorder_df.get? m.recorder_idx with
    | none => none
    | some r =>
      let n := pyStrip (r.getD track_col "")
      first_seen_track_names recorder_df track_col rest
        (if n ≠ "" ∧ n ∉ acc then acc ++ [n] else acc)

/-- Destination folder name (main.py 804-812): `"SR{roll}_{segment}"` where
the segment is the dash-joined name list (or `"Unknown"` when empty),
sanitised by `pySanitizeWordDash`. -/
def folder_name (sound_roll : String) (recorder_df : List Row) (track_col : String)
    (ms : List MatchResult) : Option String :=
  match first_seen_track_names recorder_df track_col ms [] with
  | none => none
  | some names =>
    let joined := String.intercalate "-" names
    let seg := pySanitizeWordDash (if joined = "" then "Unknown" else joined)
    some ("SR" ++ sound_roll ++ "_" ++ seg)

/-! ### Concrete inputs used by witnesses -/

/-- A concrete recorder row used by witnesses. -/
def rowR1 : Row :=
  [("TimeCode", "00:00:00:00"), ("UserBits", "AB"), ("FrameRate", "24"),
   ("Scene", "5"), ("Take", "2"), ("Name1", "JIM")]

/-- A concrete transmitter row used by witnesses. -/
def rowT1 : Row :=
  [("TimeCode", "00:00:00:00"), ("UserBits", "AB"), ("FrameRate", "24"),
   ("FileName", "A101.WAV")]

/-- A second concrete transmitter row used by witnesses. -/
def rowT2 : Row :=
  [("TimeCode", "00:00:00:01"), ("UserBits", "AB"), ("FrameRate", "24"),
   ("FileName", "B202.WAV")]

/-- The match of `rowR1` against `rowT1`. -/
def wM1 : MatchResult :=
  ⟨0, 0, "5-T2-JIM.WAV", "A101.WAV", 0, false, 24, 24⟩

/-- The match of `rowR1` against `rowT2`. -/
def wM2 : MatchResult :=
  ⟨0, 1, "5-T2-JIM.WAV", "B202.WAV", 1 / 24, false, 24, 24⟩

/-- A recorder frame on which track discovery loses a column: the value of
`Name1` is literally `A (Name3)`, so the disambiguated name chosen for
`Name3` collides with it and overwrites its entry. -/
def dfCollide : DF :=
  ⟨["Name1", "Name2", "Name3"],
   [[("Name1", "A (Name3)"), ("Name2", "A"), ("Name3", "A")]]⟩

/-- A recorder frame with an ordinary display-name collision: two track
columns owned by performers with the same name. -/
def dfTwoSame : DF :=
  ⟨["Name1", "Name2"],
   [[("Name1", "A")], [("Name2", "A")]]⟩

/-! ## Helper lemmas -/

theorem optionMapAll_length {f : α → Option β} :
    ∀ {l : List α} {l' : List β}, optionMapAll f l = some l' → l'.length = l.length := by
  intro l
  induction l with
  | nil =>
    intro l' h
    simp only [optionMapAll] at h
    cases h
    rfl
  | cons a t ih =>
    intro l' h
    simp only [optionMapAll, Option.bind_eq_bind] at h
    obtain ⟨b, hb, h⟩ := Option.bind_eq_some.mp h
    obtain ⟨bs, hbs, h⟩ := Option.bind_eq_some.mp h
    cases h
    simpa using ih hbs

theorem optionMapAll_none {f : α → Option β} {x : α} :
    ∀ {l : List α}, x ∈ l → f x = none → optionMapAll f l = none := by
  intro l
  induction l with
  | nil => intro h; cases h
  | cons a t ih =>
    intro hmem hx
    rcases List.mem_cons.mp hmem with h | h
    · subst h
      simp only [optionMapAll, Option.bind_eq_bind, hx, Option.none_bind]
    · simp only [optionMapAll, Option.bind_eq_bind]
      cases hb : f a with
      | none => rfl
      | some b => simp [ih h hx]

/-! ## C5, C9, C10: the timecode converter -/

/-- C5: for every input string, the conversion splits on the delimiters
`:`, `;`, `.`; when all four fields parse as numbers it returns
`h*3600 + m*60 + s + frames/fps`; for a malformed input (wrong field
count, or a field that does not parse) it returns `0.0` instead of
raising. -/
theorem C5_timecode_fail_soft (tc : String) (fps : ℚ) (hfps : fps ≠ 0) :
    (∀ h m s f : ℚ, tcFields tc = some (h, m, s, f) →
      timecode_to_seconds tc fps = h * 3600 + m * 60 + s + f / fps) ∧
    ((splitFields tc).length ≠ 4 → timecode_to_seconds tc fps = 0) ∧
    ((∃ fld ∈ splitFields tc, pyFloat? fld = none) → timecode_to_seconds tc fps = 0) := by
  refine ⟨?_, ?_, ?_⟩
  · intro h m s f hf
    simp [timecode_to_seconds, hf, hfps]
  · intro hlen
    have h0 : tcFields tc = none := by
      unfold tcFields
      cases hm : optionMapAll pyFloat? (splitFields tc) with
      | none => rfl
      | some l' =>
        have hl := optionMapAll_length hm
        rw [← hl] at hlen
        rcases l' with _ | ⟨a, _ | ⟨b, _ | ⟨c, _ | ⟨d, _ | ⟨e, t⟩⟩⟩⟩⟩ <;>
          simp_all
    simp [timecode_to_seconds, h0]
  · rintro ⟨fld, hmem, hnone⟩
    have hm := optionMapAll_none hmem hnone
    have h0 : tcFields tc = none := by unfold tcFields; rw [hm]
    simp [timecode_to_seconds, h0]

/-- Witness for C5 at a concrete input. -/
theorem C5_timecode_fail_soft_witness :
    timecode_to_seconds "01:00:00:12" 24 = 1 * 3600 + 0 * 60 + 0 + 12 / 24 :=
  (C5_timecode_fail_soft "01:00:00:12" 24 (by norm_num)).1 1 0 0 12
    (by with_unfolding_all decide)

/-- C9: for fixed `fps > 0` the conversion is monotonically (indeed
strictly) increasing in each of the four fields independently, and the
all-zero timecode converts to exactly `0.0`. -/
theorem C9_timecode_monotone (fps : ℚ) (hfps : 0 < fps) :
    timecode_to_seconds "00:00:00:00" fps = 0 ∧
    (∀ t1 t2 h h' m s f, tcFields t1 = some (h, m, s, f) →
      tcFields t2 = some (h', m, s, f) → h < h' →
      timecode_to_seconds t1 fps < timecode_to_seconds t2 fps) ∧
    (∀ t1 t2 h m m' s f, tcFields t1 = some (h, m, s, f) →
      tcFields t2 = some (h, m', s, f) → m < m' →
      timecode_to_seconds t1 fps < timecode_to_seconds t2 fps) ∧
    (∀ t1 t2 h m s s' f, tcFields t1 = some (h, m, s, f) →
      tcFields t2 = some (h, m, s', f) → s < s' →
      timecode_to_seconds t1 fps < timecode_to_seconds t2 fps) ∧
    (∀ t1 t2 h m s f f', tcFields t1 = some (h, m, s, f) →
      tcFields t2 = some (h, m, s, f') → f < f' →
      timecode_to_seconds t1 fps < timecode_to_seconds t2 fps) := by
  have hne : fps ≠ 0 := ne_of_gt hfps
  refine ⟨?_, ?_, ?_, ?_, ?_⟩
  · have h00 : tcFields "00:00:00:00" = some (0, 0, 0, 0) := by
      with_unfolding_all decide
    simp [timecode_to_seconds, h00, hne]
  all_goals
    intro t1 t2
    intro a1 a2 a3 a4 a5 h1 h2 hlt
    simp only [timecode_to_seconds, h1, h2, if_neg hne]
    gcongr

/-- Witness for C9 at a concrete frame rate and concrete timecodes. -/
theorem C9_timecode_monotone_witness :
    timecode_to_seconds "00:00:00:00" 24 = 0 ∧
    timecode_to_seconds "00:00:00:00" 24 < timecode_to_seconds "01:00:00:00" 24 := by
  have h := C9_timecode_monotone 24 (by norm_num)
  refine ⟨h.1, h.2.1 "00:00:00:00" "01:00:00:00" 0 1 0 0 0 ?_ ?_ (by norm_num)⟩
  · with_unfolding_all decide
  · with_unfolding_all decide

/-- C10: the conversion is total; in particular for `fps = 0` the frames
division fails inside the guarded region and every input - well-formed or
not - converts to the fail-soft value `0.0`. -/
theorem C10_zero_fps_fail_soft (tc : String) :
    timecode_to_seconds tc 0 = 0 := by
  cases h : tcFields tc with
  | none => simp [timecode_to_seconds, h]
  | some q => simp [timecode_to_seconds, h]

/-! ## Refinement of `find_matches` by the spec-side join -/

theorem recorder_fps_spec {r : Row} {v : ℚ} (h : recorder_fps r = some v) :
    spec_fps r = v := by
  unfold recorder_fps at h
  unfold spec_fps
  cases hg : r.get? "FrameRate" with
  | none =>
    rw [hg] at h
    have h2 : some DEFAULT_FPS = some v := h
    cases h2
    rfl
  | some s =>
    rw [hg] at h
    have h2 : pyFloat? s = some v := h
    show (pyFloat? s).getD DEFAULT_FPS = v
    simp [h2]

theorem transmitter_fps_spec {r : Row} {v : ℚ} (h : transmitter_fps r = some v) :
    spec_fps r = v := by
  unfold transmitter_fps at h
  unfold spec_fps
  cases hg : r.get? "FrameRate" with
  | none =>
    rw [hg] at h
    have h2 : some DEFAULT_FPS = some v := h
    cases h2
    rfl
  | some s =>
    rw [hg] at h
    have h2 : (if s = "" then some DEFAULT_FPS else pyFloat? s) = some v := h
    show (pyFloat? s).getD DEFAULT_FPS = v
    by_cases hs : s = ""
    · subst hs
      rw [if_pos rfl] at h2
      cases h2
      have he : pyFloat? "" = none := by with_unfolding_all decide
      simp [he]
    · rw [if_neg hs] at h2
      simp [h2]

theorem match_transmitters_spec {col : String} {lim : ℚ} {i : Nat} {r : Row}
    {fps tc : ℚ} (hf : spec_fps r = fps) (htc : spec_tc r = tc) :
    ∀ {ts : List (Nat × Row)} {res : List MatchResult},
      match_transmitters col lim i r fps tc ts = some res →
      res = ts.filterMap (spec_pair col lim i r) := by
  intro ts
  induction ts with
  | nil =>
    intro res h
    simp only [match_transmitters] at h
    cases h
    rfl
  | cons jt rest ih =>
    intro res h
    simp only [match_transmitters, Option.bind_eq_bind] at h
    obtain ⟨fps_t, hft, h⟩ := Option.bind_eq_some.mp h
    obtain ⟨tail, htail, h⟩ := Option.bind_eq_some.mp h
    have hspec : spec_fps jt.2 = fps_t := transmitter_fps_spec hft
    have htct : spec_tc jt.2 = timecode_to_seconds (pyStr (jt.2.get? "TimeCode")) fps_t := by
      rw [spec_tc, hspec]
    have hsp : spec_pair col lim i r jt =
        (if pyStr (r.get? "UserBits") = pyStr (jt.2.get? "UserBits")
            ∧ |tc - timecode_to_seconds (pyStr (jt.2.get? "TimeCode")) fps_t| ≤ lim then
          some (make_match col i r jt fps fps_t tc
            (timecode_to_seconds (pyStr (jt.2.get? "TimeCode")) fps_t))
        else none) := by
      unfold spec_pair
      rw [htct, htc, hf, hspec]
    by_cases hcond : pyStr (r.get? "UserBits") = pyStr (jt.2.get? "UserBits")
        ∧ |tc - timecode_to_seconds (pyStr (jt.2.get? "TimeCode")) fps_t| ≤ lim
    · rw [if_pos hcond] at h
      cases h
      rw [List.filterMap_cons_some (by rw [hsp, if_pos hcond]), ih htail]
    · rw [if_neg hcond] at h
      cases h
      rw [List.filterMap_cons_none (by rw [hsp, if_neg hcond])]
      exact ih htail

theorem match_recorders_spec {rdf tdf : List Row} {col : String} {lim : ℚ} :
    ∀ {idxs : List Nat} {res : List MatchResult},
      match_recorders rdf tdf col lim idxs = some res →
      res = match_spec rdf tdf idxs col lim := by
  intro idxs
  induction idxs with
  | nil =>
    intro res h
    simp only [match_recorders] at h
    cases h
    rfl
  | cons i rest ih =>
    intro res h
    simp only [match_recorders, Option.bind_eq_bind] at h
    obtain ⟨r, hr, h⟩ := Option.bind_eq_some.mp h
    obtain ⟨fps, hfps, h⟩ := Option.bind_eq_some.mp h
    obtain ⟨here, hhere, h⟩ := Option.bind_eq_some.mp h
    obtain ⟨tail, htail, h⟩ := Option.bind_eq_some.mp h
    cases h
    have hf : spec_fps r = fps := recorder_fps_spec hfps
    have hh : here = tdf.enum.filterMap (spec_pair col lim i r) :=
      match_transmitters_spec hf (by rw [spec_tc, hf]) hhere
    unfold match_spec
    rw [List.flatMap_cons, hr, hh, ih htail]
    rfl

/-! ## C1, C2: the join -/

/-- C2: the join is many-to-many with no pruning: whenever `find_matches`
returns, its output is exactly the spec-side nested join - outer loop over
the selected recorder indices in order, inner loop over the transmitter
rows in order, one independent Match per accepted pair (userbits
string-equal and timecode offset within tolerance), no deduplication. -/
theorem C2_many_to_many_join (rdf tdf : List Row) (idxs : List Nat) (col : String)
    (lim : ℚ) (res : List MatchResult) (h : find_matches rdf tdf idxs col lim = some res) :
    res = match_spec rdf tdf idxs col lim :=
  match_recorders_spec h

/-- Witness for C2: one recorder row matched against two transmitter rows
yields both pairs, in transmitter order. -/
theorem C2_many_to_many_join_witness :
    find_matches [rowR1] [rowT1, rowT2] [0] "Name1" 3 = some [wM1, wM2] ∧
    [wM1, wM2] = match_spec [rowR1] [rowT1, rowT2] [0] "Name1" 3 :=
  ⟨by with_unfolding_all decide,
   C2_many_to_many_join [rowR1] [rowT1, rowT2] [0] "Name1" 3 [wM1, wM2]
     (by with_unfolding_all decide)⟩

/-- C1: every Match emitted by `find_matches` has `offset_seconds` within
the supplied tolerance, and with tolerance `0` only pairs whose converted
timecodes (each using its own row's frame rate) are exactly equal are
accepted. -/
theorem C1_offset_within_tolerance (rdf tdf : List Row) (idxs : List Nat) (col : String)
    (lim : ℚ) (res : List MatchResult) (h : find_matches rdf tdf idxs col lim = some res) :
    ∀ m ∈ res, m.offset_seconds ≤ lim ∧
      (lim = 0 → ∃ r t, rdf.get? m.recorder_idx = some r ∧
        tdf.get? m.transmitter_idx = some t ∧ spec_tc r = spec_tc t) := by
  intro m hm
  rw [match_recorders_spec h] at hm
  unfold match_spec at hm
  rw [List.mem_flatMap] at hm
  obtain ⟨i, hi, hm⟩ := hm
  cases hr : rdf.get? i with
  | none => rw [hr] at hm; cases hm
  | some r =>
    rw [hr] at hm
    rw [List.mem_filterMap] at hm
    obtain ⟨jt, hjt, hpair⟩ := hm
    obtain ⟨j, t⟩ := jt
    unfold spec_pair at hpair
    by_cases hcond : pyStr (r.get? "UserBits") = pyStr (Row.get? t "UserBits")
        ∧ |spec_tc r - spec_tc t| ≤ lim
    · rw [if_pos hcond] at hpair
      cases hpair
      constructor
      · simpa [make_match] using hcond.2
      · intro hlim
        subst hlim
        refine ⟨r, t, ?_, ?_, ?_⟩
        · simpa [make_match] using hr
        · have hget : tdf[j]? = some t := List.mk_mem_enum_iff_getElem?.mp hjt
          simpa [make_match, List.get?_eq_getElem?] using hget
        · have h0 : |spec_tc r - spec_tc t| ≤ 0 := hcond.2
          have := abs_nonpos_iff.mp h0
          linarith [sub_eq_zero.mp this]
    · rw [if_neg hcond] at hpair
      cases hpair

/-- Witness for C1 at tolerance `0` with equal timecodes. -/
theorem C1_offset_within_tolerance_witness :
    wM1.offset_seconds ≤ 0 ∧
    ((0 : ℚ) = 0 → ∃ r t, [rowR1].get? wM1.recorder_idx = some r ∧
      [rowT1].get? wM1.transmitter_idx = some t ∧ spec_tc r = spec_tc t) :=
  C1_offset_within_tolerance [rowR1] [rowT1] [0] "Name1" 0 [wM1]
    (by with_unfolding_all decide) wM1 (by simp)

/-! ## C3: frame-rate defaulting -/

/-- C3 counterexample: a recorder row whose `FrameRate` cell is the empty
string makes `find_matches` fail (the `float` call raises `ValueError`)
instead of defaulting to the nominal rate. -/
theorem C3_counterexample :
    find_matches [[("FrameRate", "")]] [] [0] "" 3 = none := by
  with_unfolding_all decide

/-- C3 (amended): a missing frame-rate field defaults to `23.98` on both
sides and an empty one defaults on the transmitter side only; an empty
recorder frame rate, or a non-numeric frame rate on either side, raises
out of the engine instead of defaulting. -/
theorem C3_fps_defaults (r : Row) :
    (r.get? "FrameRate" = none →
      recorder_fps r = some DEFAULT_FPS ∧ transmitter_fps r = some DEFAULT_FPS) ∧
    (r.get? "FrameRate" = some "" →
      recorder_fps r = none ∧ transmitter_fps r = some DEFAULT_FPS) ∧
    (∀ s, r.get? "FrameRate" = some s → pyFloat? s = none → s ≠ "" →
      recorder_fps r = none ∧ transmitter_fps r = none) := by
  refine ⟨?_, ?_, ?_⟩
  · intro h
    simp [recorder_fps, transmitter_fps, h]
  · intro h
    have he : pyFloat? "" = none := by with_unfolding_all decide
    simp [recorder_fps, transmitter_fps, h, he]
  · intro s h hp hs
    simp [recorder_fps, transmitter_fps, h, hp, hs]

/-- Witness for C3 (amended) at the empty-string frame rate. -/
theorem C3_fps_defaults_witness :
    recorder_fps [("FrameRate", "")] = none ∧
    transmitter_fps [("FrameRate", "")] = some DEFAULT_FPS :=
  (C3_fps_defaults [("FrameRate", "")]).2.1 (by with_unfolding_all decide)

/-! ## C4: nan-cell normalisation -/

/-- C4 counterexample: the cell value `nan` followed by a space trims (in
the sense of the claim: surrounding quotes and whitespace removed) to
`nan` case-insensitively, yet the parsed row keeps the literal token
`nan` instead of the empty string, because the code tests the raw value
before trimming. -/
theorem C4_counterexample :
    pyLower (spec_cell_trim "nan ") = "nan" ∧ normalize_cell (some "nan ") = "nan" := by
  constructor <;> with_unfolding_all decide

/-- C4 (amended): a cell becomes the empty string exactly when it is
missing (a pandas NaN) or its raw value, before any quote or whitespace
trimming, case-insensitively equals `nan`; every other cell keeps its
value with double quotes removed and whitespace stripped - so a value
that equals `nan` only after trimming (such as `nan` plus a space)
survives as the literal token. -/
theorem C4_nan_normalization :
    normalize_cell none = "" ∧
    (∀ s : String, pyLower s = "nan" → normalize_cell (some s) = "") ∧
    (∀ s : String, pyLower s ≠ "nan" →
      normalize_cell (some s) = pyStrip (pyRemoveQuotes s)) := by
  refine ⟨rfl, ?_, ?_⟩
  · intro s h
    simp [normalize_cell, h]
  · intro s h
    simp [normalize_cell, h]

/-- Witness for C4 (amended): the raw value `NaN` is normalised to empty. -/
theorem C4_nan_normalization_witness :
    normalize_cell (some "NaN") = "" :=
  C4_nan_normalization.2.1 "NaN" (by with_unfolding_all decide)

/-! ## C6: the reconciliation batch -/

theorem partition_length (f : α → Option β) :
    ∀ l : List α,
      (l.filter (fun a => (f a).isNone)).length + (l.filterMap f).length = l.length := by
  intro l
  induction l with
  | nil => rfl
  | cons a t ih =>
    cases hf : f a with
    | none =>
      rw [List.filter_cons_of_pos (by simp [hf]), List.filterMap_cons_none hf]
      simp only [List.length_cons]
      omega
    | some b =>
      rw [List.filter_cons_of_neg (by simp [hf]), List.filterMap_cons_some hf]
      simp only [List.length_cons]
      omega

theorem copy_and_rename_files_eq (source_dir dest_dir : String)
    (afm : String → Option String) (ce : String → String → Option String) :
    ∀ ms : List MatchResult,
      copy_and_rename_files ms source_dir dest_dir afm ce =
        (ms.filter (fun m => (copy_outcome source_dir dest_dir afm ce m).isNone),
         ms.filterMap (copy_outcome source_dir dest_dir afm ce)) := by
  intro ms
  induction ms with
  | nil => rfl
  | cons m rest ih =>
    simp only [copy_and_rename_files]
    rw [ih]
    cases ha : afm (pyLower m.original_filename) with
    | none =>
      have ho : copy_outcome source_dir dest_dir afm ce m = some (notFoundMsg m) := by
        unfold copy_outcome; rw [ha]
      simp [List.filter_cons, List.filterMap_cons, ho]
    | some a =>
      by_cases hae : a = ""
      · subst hae
        have ho : copy_outcome source_dir dest_dir afm ce m = some (notFoundMsg m) := by
          unfold copy_outcome
          rw [ha]
          show (if ("" : String) = "" then some (notFoundMsg m)
            else Option.map (copyFailMsg "")
              (ce (pjoin source_dir "") (pjoin dest_dir m.new_filename))) = some (notFoundMsg m)
          rw [if_pos rfl]
        simp [List.filter_cons, List.filterMap_cons, ho]
      · cases hc : ce (pjoin source_dir a) (pjoin dest_dir m.new_filename) with
        | none =>
          have ho : copy_outcome source_dir dest_dir afm ce m = none := by
            unfold copy_outcome
            rw [ha]
            show (if a = "" then some (notFoundMsg m)
              else Option.map (copyFailMsg a)
                (ce (pjoin source_dir a) (pjoin dest_dir m.new_filename))) = none
            rw [if_neg hae, hc]
            rfl
          simp [List.filter_cons, List.filterMap_cons, ho, hae, hc]
        | some exc =>
          have ho : copy_outcome source_dir dest_dir afm ce m = some (copyFailMsg a exc) := by
            unfold copy_outcome
            rw [ha]
            show (if a = "" then some (notFoundMsg m)
              else Option.map (copyFailMsg a)
                (ce (pjoin source_dir a) (pjoin dest_dir m.new_filename))) =
              some (copyFailMsg a exc)
            rw [if_neg hae, hc]
            rfl
          simp [List.filter_cons, List.filterMap_cons, ho, hae, hc]

/-- C6: the reconciliation step processes every Match - it is exactly the
partition of the batch by the per-match outcome (not-found when the
case-insensitive index lacks the expected file, copy-failed when the copy
raises, success otherwise).  `succeeded` preserves match order (a filter
of the input), `failed` preserves encounter order (a filterMap of the
input), there is no early exit, and every Match lands in exactly one of
the two lists. -/
theorem C6_reconcile_full_batch (ms : List MatchResult) (source_dir dest_dir : String)
    (afm : String → Option String) (ce : String → String → Option String) :
    copy_and_rename_files ms source_dir dest_dir afm ce =
      (ms.filter (fun m => (copy_outcome source_dir dest_dir afm ce m).isNone),
       ms.filterMap (copy_outcome source_dir dest_dir afm ce)) ∧
    (copy_and_rename_files ms source_dir dest_dir afm ce).1.length +
      (copy_and_rename_files ms source_dir dest_dir afm ce).2.length = ms.length := by
  have he := copy_and_rename_files_eq source_dir dest_dir afm ce ms
  refine ⟨he, ?_⟩
  rw [he]
  exact partition_length _ ms

/-! ## C7: destination folder naming -/

theorem pySanitizeWordDash_chars (s : String) :
    ∀ c ∈ (pySanitizeWordDash s).data, isPyWord c = true ∨ c = '-' := by
  intro c hc
  have hm : c ∈ s.data.map (fun c => if isPyWord c || c = '-' then c else '-') := hc
  rw [List.mem_map] at hm
  obtain ⟨x, _, hxc⟩ := hm
  by_cases hw : (isPyWord x || x = '-') = true
  · rw [if_pos hw] at hxc
    subst hxc
    simpa using hw
  · rw [if_neg hw] at hxc
    right
    exact hxc.symm

theorem first_seen_track_names_sound (rdf : List Row) (col : String) :
    ∀ (ms : List MatchResult) (acc names : List String),
      acc.Nodup → "" ∉ acc →
      first_seen_track_names rdf col ms acc = some names →
      names.Nodup ∧ "" ∉ names := by
  intro ms
  induction ms with
  | nil =>
    intro acc names h1 h2 h
    simp only [first_seen_track_names] at h
    cases h
    exact ⟨h1, h2⟩
  | cons m rest ih =>
    intro acc names h1 h2 h
    simp only [first_seen_track_names] at h
    cases hr : rdf.get? m.recorder_idx with
    | none =>
      rw [hr] at h
      cases h
    | some r =>
      rw [hr] at h
      have h3 : first_seen_track_names rdf col rest
          (if pyStrip (r.getD col "") ≠ "" ∧ pyStrip (r.getD col "") ∉ acc then
            acc ++ [pyStrip (r.getD col "")] else acc) = some names := h
      by_cases hcond : pyStrip (r.getD col "") ≠ "" ∧ pyStrip (r.getD col "") ∉ acc
      · rw [if_pos hcond] at h3
        refine ih _ _ ?_ ?_ h3
        · simp [List.nodup_append, h1, hcond.2]
        · simp [List.mem_append, h2, Ne.symm hcond.1]
      · rw [if_neg hcond] at h3
        exact ih _ _ h1 h2 h3

/-- C7 counterexample: a track value can contain the Latin-1 letter 0xE9
(a lowercase accented e).  Python's regex keeps it as a word character,
so the folder name emitted for such a value still contains that letter,
which lies outside the claimed class `[A-Za-z0-9_-]` and is not replaced
by a dash. -/
theorem C7_counterexample :
    folder_name "12" [[("Name1", "é")]] "Name1" [⟨0, 0, "", "", 0, false, 24, 24⟩]
      = some "SR12_é" ∧
    spec_allowed_char 'é' = false ∧
    'é' ∈ "SR12_é".data := by
  refine ⟨?_, ?_, ?_⟩ <;> with_unfolding_all decide

/-- C7 (amended): the destination folder name is `SR` plus the session
tag plus an underscore plus the dash-joined distinct non-empty track
values of the matched recorder rows in first-seen order (the literal
`Unknown` when there are none), with every character that is neither a
Python word character nor a dash replaced by a dash - Python word
characters cover the Latin-1 letters and numeric signs in addition to
`[A-Za-z0-9_]`, and such characters are kept. -/
theorem C7_folder_naming (roll : String) (rdf : List Row) (col : String)
    (ms : List MatchResult) (f : String) (h : folder_name roll rdf col ms = some f) :
    ∃ names, first_seen_track_names rdf col ms [] = some names ∧
      names.Nodup ∧ "" ∉ names ∧
      f = "SR" ++ roll ++ "_" ++
        pySanitizeWordDash (if String.intercalate "-" names = "" then "Unknown"
          else String.intercalate "-" names) ∧
      ∀ c ∈ (pySanitizeWordDash (if String.intercalate "-" names = "" then "Unknown"
          else String.intercalate "-" names)).data, isPyWord c = true ∨ c = '-' := by
  unfold folder_name at h
  cases hn : first_seen_track_names rdf col ms [] with
  | none =>
    rw [hn] at h
    cases h
  | some names =>
    rw [hn] at h
    have h2 : some ("SR" ++ roll ++ "_" ++
        pySanitizeWordDash (if String.intercalate "-" names = "" then "Unknown"
          else String.intercalate "-" names)) = some f := h
    cases h2
    obtain ⟨hnd, hne⟩ := first_seen_track_names_sound rdf col ms [] names
      List.nodup_nil (by simp) hn
    exact ⟨names, rfl, hnd, hne, rfl, pySanitizeWordDash_chars _⟩

/-- Witness for C7 (amended) on a track value containing a space. -/
theorem C7_folder_naming_witness :
    ∃ names, first_seen_track_names [[("Name1", "Bob Z")]] "Name1"
        [⟨0, 0, "", "", 0, false, 24, 24⟩] [] = some names ∧
      names.Nodup ∧ "" ∉ names ∧
      "SR7_Bob-Z" = "SR" ++ "7" ++ "_" ++
        pySanitizeWordDash (if String.intercalate "-" names = "" then "Unknown"
          else String.intercalate "-" names) ∧
      ∀ c ∈ (pySanitizeWordDash (if String.intercalate "-" names = "" then "Unknown"
          else String.intercalate "-" names)).data, isPyWord c = true ∨ c = '-' :=
  C7_folder_naming "7" [[("Name1", "Bob Z")]] "Name1"
    [⟨0, 0, "", "", 0, false, 24, 24⟩] "SR7_Bob-Z" (by with_unfolding_all decide)

/-! ## C8: track discovery -/

theorem paren_append_inj : ∀ (l1 : List Char) {l2 r1 r2 : List Char},
    '(' ∉ l1 → '(' ∉ l2 → l1 ++ '(' :: r1 = l2 ++ '(' :: r2 → l1 = l2 ∧ r1 = r2 := by
  intro l1
  induction l1 with
  | nil =>
    intro l2 r1 r2 _ h2 he
    cases l2 with
    | nil =>
      simp only [List.nil_append] at he
      cases he
      exact ⟨rfl, rfl⟩
    | cons c t =>
      simp only [List.nil_append, List.cons_append] at he
      injection he with hc _
      exact absurd (by rw [hc]; exact List.mem_cons_self c t) h2
  | cons c1 t1 ih =>
    intro l2 r1 r2 h1 h2 he
    cases l2 with
    | nil =>
      simp only [List.nil_append, List.cons_append] at he
      injection he with hc _
      exact absurd (by rw [← hc]; exact List.mem_cons_self c1 t1) h1
    | cons c2 t2 =>
      simp only [List.cons_append] at he
      injection he with hc ht
      subst hc
      have h1' : '(' ∉ t1 := fun hm => h1 (List.mem_cons_of_mem _ hm)
      have h2' : '(' ∉ t2 := fun hm => h2 (List.mem_cons_of_mem _ hm)
      obtain ⟨ha, hb⟩ := ih h1' h2' ht
      exact ⟨by rw [ha], hb⟩

theorem disamb_inj {d1 c1 d2 c2 : String}
    (hd1 : '(' ∉ d1.data) (hd2 : '(' ∉ d2.data)
    (h : d1 ++ " (" ++ c1 ++ ")" = d2 ++ " (" ++ c2 ++ ")") : d1 = d2 ∧ c1 = c2 := by
  have hdata := congrArg String.data h
  simp only [String.data_append] at hdata
  have he : (d1.data ++ [' ']) ++ '(' :: (c1.data ++ [')']) =
      (d2.data ++ [' ']) ++ '(' :: (c2.data ++ [')']) := by
    simpa [List.append_assoc] using hdata
  have hn1 : '(' ∉ d1.data ++ [' '] := by
    simp [List.mem_append, hd1]
  have hn2 : '(' ∉ d2.data ++ [' '] := by
    simp [List.mem_append, hd2]
  obtain ⟨ha, hb⟩ := paren_append_inj _ hn1 hn2 he
  exact ⟨String.ext (List.append_cancel_right ha),
    String.ext (List.append_cancel_right hb)⟩

theorem natural_display_noParen {df : DF} {col : String} (hcol : '(' ∉ col.data)
    (hvals : ∀ v ∈ populated_values df col, '(' ∉ v.data) :
    '(' ∉ (natural_display df col).data := by
  unfold natural_display
  cases hp : populated_values df col with
  | nil => exact hcol
  | cons v t =>
    cases t with
    | nil =>
      apply hvals
      rw [hp]
      exact List.mem_cons_self v []
    | cons w t2 => exact hcol

theorem dict_insert_fresh {mp : List (String × String)} {k v : String}
    (h : ¬ mp.any (fun p => p.1 = k) = true) : dict_insert mp k v = mp ++ [(k, v)] := by
  unfold dict_insert
  rw [if_neg h]

theorem track_step_pop_nil {df : DF} {st : List String × List (String × String)}
    {col : String} (h : populated_values df col = []) :
    track_step df st col = st := by
  unfold track_step
  rw [if_pos h]

theorem track_step_pop_cons {df : DF} {act : List String} {mp : List (String × String)}
    {col : String} (h : ¬ populated_values df col = []) :
    track_step df (act, mp) col =
      (act ++ [col],
        dict_insert mp
          (if mp.any (fun p => p.1 = natural_display df col) then
            natural_display df col ++ " (" ++ col ++ ")"
          else natural_display df col) col) := by
  unfold track_step
  rw [if_neg h]

theorem track_fold_inv (df : DF)
    (hnd : (track_cols df).Nodup)
    (hcols : ∀ c ∈ track_cols df, '(' ∉ c.data)
    (hvals : ∀ c ∈ track_cols df, ∀ v ∈ populated_values df c, '(' ∉ v.data) :
    ∀ (rem done act : List String) (mp : List (String × String)),
      done ++ rem = track_cols df →
      mp.map Prod.snd = act →
      (mp.map Prod.fst).Nodup →
      (∀ p ∈ mp, (p.1 = natural_display df p.2 ∨
        p.1 = natural_display df p.2 ++ " (" ++ p.2 ++ ")") ∧ p.2 ∈ done) →
      (List.foldl (track_step df) (act, mp) rem).2.map Prod.snd =
        (List.foldl (track_step df) (act, mp) rem).1 ∧
      ((List.foldl (track_step df) (act, mp) rem).2.map Prod.fst).Nodup ∧
      ∀ p ∈ (List.foldl (track_step df) (act, mp) rem).2,
        p.1 = natural_display df p.2 ∨
        p.1 = natural_display df p.2 ++ " (" ++ p.2 ++ ")" := by
  intro rem
  induction rem with
  | nil =>
    intro done act mp _ h1 h2 h3
    rw [List.foldl_nil]
    exact ⟨h1, h2, fun p hp => (h3 p hp).1⟩
  | cons col rest ih =>
    intro done act mp hsplit h1 h2 h3
    rw [List.foldl_cons]
    have hcolmem : col ∈ track_cols df := by
      rw [← hsplit]
      simp
    have hdone_sub : ∀ x ∈ done, x ∈ track_cols df := by
      intro x hx
      rw [← hsplit]
      exact List.mem_append_left _ hx
    by_cases hpop : populated_values df col = []
    · rw [track_step_pop_nil hpop]
      refine ih (done ++ [col]) act mp ?_ h1 h2 ?_
      · rw [← hsplit]
        simp
      · intro p hp
        exact ⟨(h3 p hp).1, List.mem_append_left _ (h3 p hp).2⟩
    · rw [track_step_pop_cons hpop]
      have hcolnp : '(' ∉ col.data := hcols col hcolmem
      have hnat : '(' ∉ (natural_display df col).data :=
        natural_display_noParen hcolnp (hvals col hcolmem)
      have hcolnew : col ∉ done := by
        intro hin
        rw [← hsplit] at hnd
        rcases List.nodup_append.mp hnd with ⟨_, _, hdisj⟩
        exact hdisj hin (List.mem_cons_self col rest)
      -- the key actually inserted
      set d := (if mp.any (fun p => p.1 = natural_display df col) then
          natural_display df col ++ " (" ++ col ++ ")"
        else natural_display df col) with hd
      have hfresh : ¬ mp.any (fun p => p.1 = d) = true := by
        intro hany
        rw [List.any_eq_true] at hany
        obtain ⟨p, hpmem, hpk⟩ := hany
        have hpk2 : p.1 = d := by simpa using hpk
        have hp3 := h3 p hpmem
        have hpnat : '(' ∉ (natural_display df p.2).data :=
          natural_display_noParen (hcols _ (hdone_sub _ hp3.2))
            (hvals _ (hdone_sub _ hp3.2))
        by_cases hcoll : mp.any (fun p => p.1 = natural_display df col) = true
        · -- d is the disambiguated name, which contains a parenthesis
          rw [hd, if_pos hcoll] at hpk2
          rcases hp3.1 with hpn | hpn
          · -- a natural name cannot contain the parenthesis d has
            apply hpnat
            rw [← hpn, hpk2]
            simp [String.data_append]
          · -- two disambiguated names: the components must agree
            rw [hpn] at hpk2
            obtain ⟨_, hcc⟩ := disamb_inj hpnat hnat hpk2
            exact hcolnew (hcc ▸ hp3.2)
        · -- d is the natural name and the collision check failed
          rw [hd, if_neg hcoll] at hpk2
          apply hcoll
          rw [List.any_eq_true]
          exact ⟨p, hpmem, by simpa using hpk2⟩
      rw [dict_insert_fresh hfresh]
      refine ih (done ++ [col]) (act ++ [col]) (mp ++ [(d, col)]) ?_ ?_ ?_ ?_
      · rw [← hsplit]
        simp
      · simp [h1]
      · simp only [List.map_append, List.map_cons, List.map_nil]
        rw [List.nodup_append]
        refine ⟨h2, List.nodup_singleton _, ?_⟩
        intro k hk hk2
        apply hfresh
        rw [List.any_eq_true]
        rcases List.mem_map.mp hk with ⟨p, hpmem, hpk⟩
        have hkd : k = d := by simpa using hk2
        exact ⟨p, hpmem, by simp [hpk, hkd]⟩
      · intro p hp
        rcases List.mem_append.mp hp with hp | hp
        · exact ⟨(h3 p hp).1, List.mem_append_left _ (h3 p hp).2⟩
        · have hpd : p = (d, col) := by simpa using hp
          subst hpd
          refine ⟨?_, by simp⟩
          rw [hd]
          by_cases hcoll : mp.any (fun p => p.1 = natural_display df col) = true
          · rw [if_pos hcoll]
            right
            rfl
          · rw [if_neg hcoll]
            left
            rfl

/-- C8 counterexample: on `dfCollide` the column `Name1` is active but
has no entry left in the final mapping - its display name `A (Name3)`
is overwritten when the collision-suffixed name chosen for `Name3`
coincides with it. -/
theorem C8_counterexample :
    "Name1" ∈ (identify_active_tracks dfCollide).1 ∧
    "Name1" ∉ (identify_active_tracks dfCollide).2.map Prod.snd ∧
    (identify_active_tracks dfCollide).2 = [("A (Name3)", "Name3"), ("A", "Name2")] := by
  refine ⟨?_, ?_, ?_⟩ <;> with_unfolding_all decide

/-- C8 (amended): track discovery maps every active column to exactly one
display name - the mapping lists the active columns exactly, in order,
under pairwise-distinct display names, each being the column's natural
display name or, on a collision, that name with the column name appended
in parentheses - provided no candidate column name or populated track
value contains a parenthesis (and the schema has no duplicate columns).
Without that proviso a second collision overwrites an earlier entry and
the earlier active column is lost, as the counterexample shows. -/
theorem C8_track_mapping (df : DF)
    (h1 : df.columns.Nodup)
    (h2 : ∀ c ∈ track_cols df, '(' ∉ c.data)
    (h3 : ∀ c ∈ track_cols df, ∀ v ∈ populated_values df c, '(' ∉ v.data) :
    (identify_active_tracks df).2.map Prod.snd = (identify_active_tracks df).1 ∧
    ((identify_active_tracks df).2.map Prod.fst).Nodup ∧
    ∀ p ∈ (identify_active_tracks df).2,
      p.1 = natural_display df p.2 ∨
      p.1 = natural_display df p.2 ++ " (" ++ p.2 ++ ")" := by
  have hnd : (track_cols df).Nodup := h1.filter _
  have h := track_fold_inv df hnd h2 h3 (track_cols df) [] [] [] (by simp) rfl
    List.nodup_nil (by simp)
  simpa [identify_active_tracks] using h

/-- Witness for C8 (amended): two single-performer columns sharing the
display name `A`; the second gets `A (Name2)` and both columns stay in
the mapping. -/
theorem C8_track_mapping_witness :
    (identify_active_tracks dfTwoSame).2.map Prod.snd = (identify_active_tracks dfTwoSame).1 ∧
    ((identify_active_tracks dfTwoSame).2.map Prod.fst).Nodup ∧
    ∀ p ∈ (identify_active_tracks dfTwoSame).2,
      p.1 = natural_display dfTwoSame p.2 ∨
      p.1 = natural_display dfTwoSame p.2 ++ " (" ++ p.2 ++ ")" :=
  C8_track_mapping dfTwoSame (by with_unfolding_all decide)
    (by with_unfolding_all decide) (by with_unfolding_all decide)

end ZMatch
